import Mathlib

/-!
Verification of the post-segmentation geometric/statistical engine of the
Nuclei_Stardist_detection pipeline.  The definitions below are shallow
embeddings of the Python/Jython sources:

* `roi_pixel_iter`, `roi_area_pixels`, `roi_mean` — from
  `NucleiInsideAOi.py` (`roi_pixel_iter`, `roi_area_pixels`, `roi_mean`,
  lines 104-126), identical in `Positiv_negativ.py` (lines 86-100) and
  `positivearea_Positivnegativ.py` (lines 152-174).
* region filter, AOI membership, marker classification, rescaling and
  summary-row emission from the respective scripts, cited at each
  definition.

Intensities are modelled as integers (`ip.get` returns an int in ImageJ),
ratios and thresholds as rationals.
-/

namespace NucleiStardist

/-- Model of an ImageJ `ImageProcessor`: width, height, and a total pixel
lookup (`ip.get(gx, gy)`). -/
structure ImgProc where
  W : Nat
  H : Nat
  pix : Int → Int → Int

/-- Model of an ImageJ `Roi` as consumed by `roi_pixel_iter`: the bounding
box (`roi.getBounds()`, with integer corner that may be negative) and the
optional local byte mask (`roi.getMask()`, value `0` meaning outside). -/
structure Roi where
  bx : Int
  bY : Int
  width : Nat
  height : Nat
  mask : Option (Nat → Nat → Nat)

/-- One row of `roi_pixel_iter` (`NucleiInsideAOi.py` lines 108-115): the
row is dropped entirely when its global y coordinate is out of the image,
and within the row each pixel is dropped when its global x coordinate is
out of the image or the mask value at the local coordinates is `0`. -/
def roi_pixel_row (ip : ImgProc) (roi : Roi) (yy : Nat) : List (Int × Int) :=
  let gy : Int := roi.bY + (yy : Int)
  if gy < 0 ∨ (ip.H : Int) ≤ gy then []
  else
    (List.range roi.width).filterMap (fun (xx : Nat) =>
      let gx : Int := roi.bx + (xx : Int)
      if gx < 0 ∨ (ip.W : Int) ≤ gx then none
      else
        match roi.mask with
        | some m => if m xx yy = 0 then none else some (gx, gy)
        | none => some (gx, gy))

/-- Embedding of `roi_pixel_iter(ip, roi)` (`NucleiInsideAOi.py` lines
104-115, `Positiv_negativ.py` lines 86-100): iterate the bounding box row
by row, silently skipping out-of-bounds coordinates and mask-zero pixels. -/
def roi_pixel_iter (ip : ImgProc) (roi : Roi) : List (Int × Int) :=
  (List.range roi.height).flatMap (roi_pixel_row ip roi)

/-- Embedding of `roi_area_pixels(ip, roi)` (`NucleiInsideAOi.py` lines
117-120): count the pixels yielded by `roi_pixel_iter`. -/
def roi_area_pixels (ip : ImgProc) (roi : Roi) : Nat :=
  (roi_pixel_iter ip roi).length

/-- Embedding of `roi_mean(ip, roi)` (`NucleiInsideAOi.py` lines 122-126):
sum of intensities over the yielded pixels divided by their count, `0.0`
when the count is `0`. -/
def roi_mean (ip : ImgProc) (roi : Roi) : ℚ :=
  let pts := roi_pixel_iter ip roi
  if 0 < pts.length then
    ((pts.map (fun p => ip.pix p.1 p.2)).sum : ℚ) / (pts.length : ℚ)
  else 0

/-- Mask admission predicate used by `roi_pixel_iter`: with a mask, the
local pixel must have a nonzero mask value; without a mask every bounding
box pixel is admitted. -/
def maskAdmits (roi : Roi) (xx yy : Nat) : Prop :=
  match roi.mask with
  | some m => m xx yy ≠ 0
  | none => True

instance (roi : Roi) (xx yy : Nat) : Decidable (maskAdmits roi xx yy) := by
  unfold maskAdmits
  cases roi.mask <;> infer_instance

/-- Configuration of the Region Filter: the size bounds and the two
intensity-plausibility thresholds, prompted once per run. -/
structure FilterCfg where
  size_min : ℚ
  size_max : ℚ
  min_mean_intensity : ℚ
  sigma_above_bg : ℚ

/-- Embedding of the region filter of `NucleiInsideAOi.py` lines 263-268:
reject when the pixel area falls outside `[size_min, size_max]`, then
reject when the absolute intensity floor is enabled and the mean is below
it, then reject when the sigma-above-background test is enabled and the
mean is below `bg_mean + sigma * bg_sd`. -/
def keep_roi (cfg : FilterCfg) (bg_mean bg_sd : ℚ) (ip : ImgProc) (roi : Roi) : Bool :=
  let area_px : ℚ := (roi_area_pixels ip roi : ℚ)
  if area_px < cfg.size_min ∨ cfg.size_max < area_px then false
  else
    let mval := roi_mean ip roi
    if 0 < cfg.min_mean_intensity ∧ mval < cfg.min_mean_intensity then false
    else if 0 < cfg.sigma_above_bg ∧ mval < bg_mean + cfg.sigma_above_bg * bg_sd then false
    else true

/-- Embedding of `filter_labels_by_intensity` of
`nuclei_stardist_vscode.py` lines 155-167: the same three tests written as
a size rejection followed by the conjunction `pass_abs and pass_sigma`. -/
def vscode_keep (cfg : FilterCfg) (bg_mean bg_std : ℚ) (area mean_intensity : ℚ) : Bool :=
  if area < cfg.size_min ∨ cfg.size_max < area then false
  else
    let pass_abs : Bool :=
      decide (cfg.min_mean_intensity ≤ 0) || decide (cfg.min_mean_intensity ≤ mean_intensity)
    let pass_sigma : Bool :=
      decide (cfg.sigma_above_bg ≤ 0) ||
        decide (bg_mean + cfg.sigma_above_bg * bg_std ≤ mean_intensity)
    pass_abs && pass_sigma

/-- Embedding of `classify_roi(marker_ip, roi, thr, min_pos_frac)` of
`Positiv_negativ.py` lines 102-111: count the region pixels and the pixels
at or above the marker threshold; return `(False, 0, 0)` when the region
has no pixels, otherwise the positivity verdict together with the raw
`(total, positive)` counts. -/
def classify_roi (marker_ip : ImgProc) (roi : Roi) (thr : Int) (min_pos_frac : ℚ) :
    Bool × Nat × Nat :=
  let pts := roi_pixel_iter marker_ip roi
  let total := pts.length
  let pospix := (pts.filter (fun p => thr ≤ marker_ip.pix p.1 p.2)).length
  if total = 0 then (false, 0, 0)
  else (decide (min_pos_frac ≤ (pospix : ℚ) / (total : ℚ)), total, pospix)

/-- One per-region row of the detail CSV of `Positiv_negativ.py` line 354:
the 1-based region index and the audited `(total, positive)` pixel counts
with the verdict. -/
structure DetailRow where
  ridx : Nat
  roi_px : Nat
  pospix : Nat
  is_pos : Bool
deriving DecidableEq

/-- Accumulated result of the classification loop of `Positiv_negativ.py`
lines 340-358: the number of classified regions, the positive and negative
counts, and the emitted per-region rows. -/
structure LoopResult where
  total : Nat
  pos_count : Nat
  neg_count : Nat
  rows : List DetailRow
deriving DecidableEq

/-- Embedding of the classification loop of `Positiv_negativ.py` lines
340-358: `for ridx, roi in enumerate(valid)` classifies each region, skips
it entirely (`continue`) when it contributed zero pixels, and otherwise
counts it as positive or negative and emits one detail row carrying the
`(total, positive)` counts. -/
def classify_loop (m_ip : ImgProc) (thr : Int) (min_pos_frac : ℚ) :
    Nat → List Roi → LoopResult
  | _, [] => ⟨0, 0, 0, []⟩
  | ridx, roi :: rest =>
    let c := classify_roi m_ip roi thr min_pos_frac
    let r := classify_loop m_ip thr min_pos_frac (ridx + 1) rest
    if c.2.1 = 0 then r
    else
      ⟨r.total + 1,
       if c.1 then r.pos_count + 1 else r.pos_count,
       if c.1 then r.neg_count else r.neg_count + 1,
       ⟨ridx + 1, c.2.1, c.2.2, c.1⟩ :: r.rows⟩

/-- Pixel counts of the AOI membership test of `NucleiInsideAOi.py` lines
272-275 (identical in `positivearea_Positivnegativ.py` lines 446-450):
`(inside, allpix)` where `allpix` counts the region pixels on the AOI mask
processor and `inside` those of them with a positive mask value. -/
def aoi_inside_count (aoi_mask_ip : ImgProc) (roi : Roi) : Nat × Nat :=
  let pts := roi_pixel_iter aoi_mask_ip roi
  ((pts.filter (fun p => 0 < aoi_mask_ip.pix p.1 p.2)).length, pts.length)

/-- Embedding of the AOI membership verdict of `NucleiInsideAOi.py` line
276: `in_aoi = (allpix > 0 and inside/allpix >= AOI_ROI_MIN_FRAC)`. -/
def in_aoi_test (aoi_mask_ip : ImgProc) (roi : Roi) (min_frac : ℚ) : Bool :=
  let ic := aoi_inside_count aoi_mask_ip roi
  decide (0 < ic.2 ∧ min_frac ≤ (ic.1 : ℚ) / (ic.2 : ℚ))

/-- The overlap fraction `inside/allpix` used by the AOI membership test,
with the 0-denominator default `0.0` of the specification. -/
def overlapFraction (aoi_mask_ip : ImgProc) (roi : Roi) : ℚ :=
  let ic := aoi_inside_count aoi_mask_ip roi
  if 0 < ic.2 then (ic.1 : ℚ) / (ic.2 : ℚ) else 0

/-- Output shape of the resolution rescaler: either a rectangle `Roi` or a
`PolygonRoi` with an ordered vertex list. -/
inductive RoiShape where
  | rect (x y w h : Int)
  | polygon (pts : List (ℚ × ℚ))
deriving DecidableEq

/-- Rounding of Jython `int(round(x))`: round to nearest with halves going
away from zero. -/
def pyround (q : ℚ) : Int :=
  if q < 0 then -(round (-q)) else round q

/-- Embedding of `rescale_roi_to_original(roi, sx, sy)` of
`NucleiInsideAOi.py` lines 154-166.  The float polygon of the source roi
is `fp` (with `none` for no polygon, and an empty vertex list for
`npoints == 0`); the bounding box is `(box_x, box_y, box_w, box_h)`.  With
no polygon the bounding box corners and sizes are scaled, rounded to
nearest integers and the sizes clamped to at least 1; otherwise every
vertex is multiplied coordinate-wise by `(sx, sy)` and a polygon of the
same vertex count and order is rebuilt. -/
def rescale_roi_to_original (fp : Option (List (ℚ × ℚ)))
    (box_x box_y : Int) (box_w box_h : Nat) (sx sy : ℚ) : RoiShape :=
  let rectCase : RoiShape :=
    .rect (pyround ((box_x : ℚ) * sx)) (pyround ((box_y : ℚ) * sy))
      (max 1 (pyround ((box_w : ℚ) * sx))) (max 1 (pyround ((box_h : ℚ) * sy)))
  match fp with
  | none => rectCase
  | some pts =>
    if pts.length = 0 then rectCase
    else .polygon (pts.map (fun v => (v.1 * sx, v.2 * sy)))

/-- Raster of all image coordinates, the pixel population of
`getStatistics` on a processor with no roi set. -/
def all_pixels (ip : ImgProc) : List (Int × Int) :=
  (List.range ip.H).flatMap (fun gy =>
    (List.range ip.W).map (fun gx => ((gx : Int), (gy : Int))))

/-- Mean intensity of a pixel population, `0` when it is empty. -/
def pixel_list_mean (ip : ImgProc) (pts : List (Int × Int)) : ℚ :=
  if 0 < pts.length then
    ((pts.map (fun p => ip.pix p.1 p.2)).sum : ℚ) / (pts.length : ℚ)
  else 0

/-- Background mean as computed by `NucleiInsideAOi.py` lines 241-246 and
`positivearea_Positivnegativ.py` lines 350-353: `IS.getStatistics` over the
whole reference processor, with no roi restriction at all. -/
def bg_mean_whole_image (ip : ImgProc) : ℚ :=
  pixel_list_mean ip (all_pixels ip)

/-- True when the coordinate lies in some detected region, the rasterized
union built by the iterated `ShapeRoi.or` of `nuclei_stardist_sorted.py`
lines 216-220. -/
def in_union (ip : ImgProc) (rois : List Roi) (p : Int × Int) : Bool :=
  rois.any (fun r => decide (p ∈ roi_pixel_iter ip r))

/-- Background mean as computed by `nuclei_stardist_sorted.py` lines
222-230 and `Positiv_negativ.py` lines 283-291: statistics of the inverse
of the combined roi (`Make Inverse`), falling back to whole-image
statistics when no region was detected (`combined is None`). -/
def bg_mean_outside_union (ip : ImgProc) (rois : List Roi) : ℚ :=
  if rois.isEmpty then bg_mean_whole_image ip
  else pixel_list_mean ip ((all_pixels ip).filter (fun p => !(in_union ip rois p)))

/-- Summary row of `nuclei_stardist_sorted.py`: total kept count, mean
area and mean roundness (lines 252-262). -/
structure SortedSummary where
  count : Nat
  mean_area : ℚ
  mean_round : ℚ
deriving DecidableEq

/-- Embedding of the summary computation of `nuclei_stardist_sorted.py`
lines 252-258 on the kept `(area, roundness)` pairs: means when the count
is positive, `0.0` otherwise. -/
def sorted_summary (kept : List (ℚ × ℚ)) : SortedSummary :=
  let count := kept.length
  if 0 < count then
    ⟨count, (kept.map Prod.fst).sum / (count : ℚ), (kept.map Prod.snd).sum / (count : ℚ)⟩
  else ⟨count, 0, 0⟩

/-- The summary rows appended by one processed series of
`nuclei_stardist_sorted.py`: `export_counts` and `export_morphology` run
unconditionally at lines 261-262, so exactly one summary row is written
also when the kept set is empty. -/
def sorted_summary_rows (kept : List (ℚ × ℚ)) : List SortedSummary :=
  [sorted_summary kept]

/-- One kept region of `NucleiInsideAOi.py` as consumed by its summary
export: pixel area, AOI membership flag, and circularity with `none`
modelling `Double.NaN`. -/
structure KeptEntry where
  area_px : Nat
  in_aoi : Bool
  circ : Option ℚ
deriving DecidableEq

/-- Summary row of `NucleiInsideAOi.py` (header at line 296). -/
structure AoiSummary where
  n_rois : Nat
  n_in_aoi : Nat
  mean_area : ℚ
  mean_circ : ℚ
  mean_circ_in : ℚ
deriving DecidableEq

/-- The summary rows appended by one processed series of
`NucleiInsideAOi.py`: the `if not kept` branch at lines 286-289 returns
before any CSV export, so an empty kept set writes no row; otherwise lines
298-314 write exactly one row, with NaN circularities excluded from both
mean-circularity aggregates. -/
def insideAOI_summary_rows (kept : List KeptEntry) : List AoiSummary :=
  if kept.isEmpty then []
  else
    let n_all := kept.length
    let n_in := (kept.filter (fun k => k.in_aoi)).length
    let mean_area := ((kept.map (fun k => (k.area_px : ℚ))).sum) / (n_all : ℚ)
    let circ_vals := kept.filterMap (fun k => k.circ)
    let circ_vals_in := (kept.filter (fun k => k.in_aoi)).filterMap (fun k => k.circ)
    let mean_circ := if 0 < circ_vals.length then circ_vals.sum / (circ_vals.length : ℚ) else 0
    let mean_circ_in :=
      if 0 < circ_vals_in.length then circ_vals_in.sum / (circ_vals_in.length : ℚ) else 0
    [⟨n_all, n_in, mean_area, mean_circ, mean_circ_in⟩]

/-- Rational model of the float constant `np.pi` used at line 177 of
`nuclei_stardist_vscode.py`. -/
def qpi : ℚ := 3.141592653589793

/-- Embedding of the circularity expression of
`nuclei_stardist_vscode.py` line 177:
`4 * np.pi * area / (perimeter ** 2) if perimeter > 0 else 0`. -/
def vscode_circularity (area perimeter : ℚ) : ℚ :=
  if 0 < perimeter then 4 * qpi * area / perimeter ^ 2 else 0

/-- Embedding of the mean-circularity aggregation of
`nuclei_stardist_vscode.py` lines 319-325: `np.mean` over the circularity
entries of all kept properties when the count is positive, else `0.0`. -/
def vscode_mean_circ (vals : List ℚ) : ℚ :=
  if 0 < vals.length then vals.sum / (vals.length : ℚ) else 0

/-- Embedding of `circ_from_roi(roi)` of `NucleiInsideAOi.py` lines
134-151 (identical in `positivearea_Positivnegativ.py` lines 176-191).
The ImageJ `ParticleAnalyzer` is the external collaborator, modelled as
the function `analyzeParticles` returning the measured circularities of
the particles of the mask; `Double.NaN` is modelled as `none`.  A roi
without a mask gives NaN, and so does an analysis with no particle row
(`rtloc.getCounter() == 0`); otherwise row 0 is returned. -/
def circ_from_roi (analyzeParticles : (Nat → Nat → Nat) → List ℚ)
    (mask : Option (Nat → Nat → Nat)) : Option ℚ :=
  match mask with
  | none => none
  | some m =>
    match analyzeParticles m with
    | [] => none
    | c :: _ => some c

/-- Mean circularity over the non-NaN values only, `NucleiInsideAOi.py`
lines 302-310: NaN entries are dropped before summing and counting. -/
def mean_circ_nonNaN (cs : List (Option ℚ)) : ℚ :=
  let vals := cs.filterMap id
  if 0 < vals.length then vals.sum / (vals.length : ℚ) else 0

/-- An open image window as seen by the channel pickers: its title (already
lowercased, as the sources lowercase both sides) and the mean intensity
that the brightest-image fallback measures. -/
structure Win where
  title : String
  meanIntensity : ℚ
deriving DecidableEq

/-- Case-exact substring containment, the Python `p in title` test. -/
def strContains (hay pat : String) : Bool :=
  decide (pat.toList <:+: hay.toList)

/-- True when some configured pattern occurs in the window title:
`any(p in title for p in patterns)`. -/
def title_match (patterns : List String) (w : Win) : Bool :=
  patterns.any (fun p => strContains w.title p)

/-- Embedding of the brightest-image fallback fold of
`Positiv_negativ.py` lines 140-149: starting from `best = None`,
`best_mean = -1.0`, take each window whose mean strictly exceeds the best
so far. -/
def brightest_step (best : Option Win × ℚ) (im : Win) : Option Win × ℚ :=
  if best.2 < im.meanIntensity then (some im, im.meanIntensity) else best

/-- The fold of the fallback: every window of the list is offered to
`brightest_step` in order. -/
def brightest_fold (l : List Win) : Option Win :=
  (l.foldl brightest_step ((none : Option Win), (-1 : ℚ))).1

/-- Embedding of `pick_dapi_from_list(img_list, patterns)` of
`Positiv_negativ.py` lines 135-149: first window whose title contains a
pattern, otherwise the brightest-image fallback. -/
def pick_dapi_from_list (img_list : List Win) (patterns : List String) : Option Win :=
  match img_list.find? (title_match patterns) with
  | some im => some im
  | none => brightest_fold img_list

/-- Embedding of `pick_dapi_image(patterns, candidates)` of
`NucleiInsideAOi.py` lines 71-75: first window whose title contains a
pattern, otherwise `candidates[0] if candidates else None`. -/
def pick_dapi_image (patterns : List String) (candidates : List Win) : Option Win :=
  match candidates.find? (title_match patterns) with
  | some im => some im
  | none => candidates.head?

/-- Embedding of `pick_dapi_image(patterns)` of
`nuclei_stardist_sorted.py` lines 52-69: first title match, else the
single open image, else the brightest image, else the first image. -/
def pick_dapi_sorted (patterns : List String) (imgs : List Win) : Option Win :=
  match imgs.find? (title_match patterns) with
  | some im => some im
  | none =>
    if imgs.length = 1 then imgs.head?
    else
      match brightest_fold imgs with
      | some b => some b
      | none => imgs.head?

/-- Embedding of the skip decision of `Positiv_negativ.py` lines 186-202:
the marker windows are those whose title contains some marker key, and the
series is skipped iff `dapi is None or not markers`. -/
def posneg_series_skipped (windows : List Win) (patterns marker_keys : List String) : Bool :=
  let dapi := pick_dapi_from_list windows patterns
  let markers := windows.filter (fun w => marker_keys.any (fun k => strContains w.title k))
  dapi.isNone || markers.isEmpty

/-- Embedding of `area_scale` of `positivearea_Positivnegativ.py` line
355: the squared pre-scaling factor when scaling is active
(`abs(SCALE_FACTOR - 1.0) > 1e-6`), else `1.0`. -/
def area_scale (scale_factor : ℚ) : ℚ :=
  if 1 / 1000000 < |scale_factor - 1| then scale_factor * scale_factor else 1

/-- Effective minimum size bound, `positivearea_Positivnegativ.py` line
356. -/
def size_min_eff (size_min scale_factor : ℚ) : ℚ :=
  size_min * area_scale scale_factor

/-- Effective maximum size bound, `positivearea_Positivnegativ.py` line
357. -/
def size_max_eff (size_max scale_factor : ℚ) : ℚ :=
  size_max * area_scale scale_factor

/-- The size test of `positivearea_Positivnegativ.py` line 362 on a
working-resolution pixel area:
`if area_px < size_min_eff or area_px > size_max_eff: continue`. -/
def size_pass_work (size_min size_max scale_factor : ℚ) (area_px : Nat) : Bool :=
  if (area_px : ℚ) < size_min_eff size_min scale_factor ∨
      size_max_eff size_max scale_factor < (area_px : ℚ) then false
  else true

/-- Embedding of the kept-region predicate of
`positivearea_Positivnegativ.py` lines 359-367: all measurements (pixel
area and mean) are taken on the working-resolution processor
`work.getProcessor()` of line 351, and the size bounds are the effective
scaled bounds. -/
def positivearea_keep (cfg : FilterCfg) (scale_factor bg_mean bg_sd : ℚ)
    (work_ip : ImgProc) (roi : Roi) : Bool :=
  let area_px := roi_area_pixels work_ip roi
  if (area_px : ℚ) < size_min_eff cfg.size_min scale_factor ∨
      size_max_eff cfg.size_max scale_factor < (area_px : ℚ) then false
  else
    let mval := roi_mean work_ip roi
    if 0 < cfg.min_mean_intensity ∧ mval < cfg.min_mean_intensity then false
    else if 0 < cfg.sigma_above_bg ∧ mval < bg_mean + cfg.sigma_above_bg * bg_sd then false
    else true

/-- Working dimensions requested from the scaling engine by
`scale_duplicate_to` (`positivearea_Positivnegativ.py` lines 214-216):
`max(1, int(round(orig_w * scale)))` by `max(1, int(round(orig_h * scale)))`. -/
def scaled_dims (W H : Nat) (s : ℚ) : Nat × Nat :=
  (max 1 (pyround ((W : ℚ) * s)).toNat, max 1 (pyround ((H : ℚ) * s)).toNat)

/-- Embedding of `scale_duplicate_to(imp, scale, suffix)` of
`positivearea_Positivnegativ.py` lines 208-224 (success path): when
`abs(scale - 1.0) <= 1e-6` the image is only duplicated (same content),
otherwise the `Scale...` command — the collaborator `scaleEngine` — is
invoked with the working dimensions `scaled_dims`.  The StarDist work
image of lines 287-296 is produced by the same duplicate-and-scale
formula applied to the reference channel. -/
def scale_duplicate_to (scaleEngine : ImgProc → Nat × Nat → ImgProc)
    (imp : ImgProc) (scale : ℚ) : ImgProc :=
  if |scale - 1| ≤ 1/1000000 then imp
  else scaleEngine imp (scaled_dims imp.W imp.H scale)

/-- One iteration of the per-region classification loop of
`positivearea_Positivnegativ.py` lines 435-450: marker pixel counts over
`roi_pixel_iter(m_ip, roi)` with the fixed threshold, the `continue` on a
zero-pixel region modelled as `none`, the positivity verdict of line 442,
and the AOI overlap verdict of lines 444-450 (false when no AOI mask was
built). -/
def positivearea_classify_region (m_ip : ImgProc) (aoi_mask_ip : Option ImgProc)
    (thr : Int) (pos_frac aoi_min_frac : ℚ) (roi : Roi) :
    Option (Nat × Nat × Bool × Bool) :=
  let pts := roi_pixel_iter m_ip roi
  let total := pts.length
  let pospix := (pts.filter (fun p => thr ≤ m_ip.pix p.1 p.2)).length
  if total = 0 then none
  else
    let is_pos := decide (pos_frac ≤ (pospix : ℚ) / (total : ℚ))
    let in_aoi :=
      match aoi_mask_ip with
      | some a => in_aoi_test a roi aoi_min_frac
      | none => false
    some (total, pospix, is_pos, in_aoi)

/-- The working-resolution dataflow of one marker pass of
`positivearea_Positivnegativ.py`: the marker image used for
classification is `scale_duplicate_to(mwin, SCALE_FACTOR)` (line 419) and
the AOI mask is built by the preprocessing-and-threshold collaborator
`maskEngine` (median, rolling-ball repeats, `setThreshold` and
`Convert to Mask`, lines 386-394) from `scale_duplicate_to(aoi,
SCALE_FACTOR)` (line 384), before any per-region measurement; every kept
region is then classified against those two working-scale processors. -/
def positivearea_series_classify (scaleEngine : ImgProc → Nat × Nat → ImgProc)
    (maskEngine : ImgProc → ImgProc) (aoi : Option ImgProc) (mwin : ImgProc)
    (s : ℚ) (thr : Int) (pos_frac aoi_min_frac : ℚ) (kept_rois : List Roi) :
    List (Option (Nat × Nat × Bool × Bool)) :=
  let m_ip := scale_duplicate_to scaleEngine mwin s
  let aoi_mask_ip := aoi.map (fun x => maskEngine (scale_duplicate_to scaleEngine x s))
  kept_rois.map (positivearea_classify_region m_ip aoi_mask_ip thr pos_frac aoi_min_frac)

/-- Example scaling engine for witnesses: produces an image of exactly the
requested dimensions. -/
def exScaleEngine (imp : ImgProc) (d : Nat × Nat) : ImgProc :=
  ⟨d.1, d.2, imp.pix⟩

/-- Example image: 4 by 4, a single bright pixel at the origin. -/
def exIp : ImgProc :=
  ⟨4, 4, fun gx gy => if gx = 0 ∧ gy = 0 then 200 else 0⟩

/-- Example region: the 2 by 2 box at the origin, no fine mask. -/
def exRoi : Roi := ⟨0, 0, 2, 2, none⟩

/-- Example AOI mask processor: the left column of a 4 by 4 image is
foreground. -/
def exMaskIp : ImgProc :=
  ⟨4, 4, fun gx _ => if gx = 0 then 255 else 0⟩

/-- Example background image: 2 by 1 with intensities 10 and 0. -/
def exBgIp : ImgProc :=
  ⟨2, 1, fun gx _ => if gx = 0 then 10 else 0⟩

/-- Example region covering exactly the bright pixel of `exBgIp`. -/
def exBgRoi : Roi := ⟨0, 0, 1, 1, none⟩

/-- Example window whose title matches no DAPI pattern. -/
def exW1 : Win := ⟨"c2-foo", 5⟩

/-- Example window whose title matches no DAPI pattern, brighter than
`exW1`. -/
def exW2 : Win := ⟨"c3-bar", 10⟩

/-- The default DAPI channel patterns of every script. -/
def exPatterns : List String := ["c1-", "dapi", "blue"]

/-- Example marker channel keys. -/
def exMarkerKeys : List String := ["c3-"]

theorem roi_pixel_row_eq (ip : ImgProc) (roi : Roi) (yy : Nat) :
    roi_pixel_row ip roi yy =
      if roi.bY + (yy : Int) < 0 ∨ (ip.H : Int) ≤ roi.bY + (yy : Int) then []
      else
        (List.range roi.width).filterMap (fun (xx : Nat) =>
          if ¬(roi.bx + (xx : Int) < 0 ∨ (ip.W : Int) ≤ roi.bx + (xx : Int)) ∧
              maskAdmits roi xx yy
          then some (roi.bx + (xx : Int), roi.bY + (yy : Int)) else none) := by
  cases hm : roi.mask with
  | none =>
    unfold roi_pixel_row
    simp only [hm]
    by_cases hy : roi.bY + (yy : Int) < 0 ∨ (ip.H : Int) ≤ roi.bY + (yy : Int)
    · simp [hy]
    · simp only [if_neg hy]
      congr 1
      funext xx
      by_cases hx : roi.bx + (xx : Int) < 0 ∨ (ip.W : Int) ≤ roi.bx + (xx : Int)
      · simp [hx]
      · simp [hx, maskAdmits, hm]
  | some m =>
    unfold roi_pixel_row
    simp only [hm]
    by_cases hy : roi.bY + (yy : Int) < 0 ∨ (ip.H : Int) ≤ roi.bY + (yy : Int)
    · simp [hy]
    · simp only [if_neg hy]
      congr 1
      funext xx
      by_cases hx : roi.bx + (xx : Int) < 0 ∨ (ip.W : Int) ≤ roi.bx + (xx : Int)
      · simp [hx]
      · by_cases hmv : m xx yy = 0
        · simp [hx, maskAdmits, hm, hmv]
        · simp [hx, maskAdmits, hm, hmv]

theorem mem_roi_pixel_iter (ip : ImgProc) (roi : Roi) (p : Int × Int) :
    p ∈ roi_pixel_iter ip roi ↔
      ∃ xx < roi.width, ∃ yy < roi.height,
        p = (roi.bx + (xx : Int), roi.bY + (yy : Int)) ∧
        0 ≤ roi.bx + (xx : Int) ∧ roi.bx + (xx : Int) < (ip.W : Int) ∧
        0 ≤ roi.bY + (yy : Int) ∧ roi.bY + (yy : Int) < (ip.H : Int) ∧
        maskAdmits roi xx yy := by
  unfold roi_pixel_iter
  simp only [List.mem_flatMap, List.mem_range]
  constructor
  · rintro ⟨yy, hyy, hp⟩
    rw [roi_pixel_row_eq] at hp
    by_cases hy : roi.bY + (yy : Int) < 0 ∨ (ip.H : Int) ≤ roi.bY + (yy : Int)
    · simp [hy] at hp
    · rw [if_neg hy] at hp
      simp only [List.mem_filterMap, List.mem_range, Option.ite_none_right_eq_some,
        Option.some.injEq] at hp
      obtain ⟨xx, hxx, ⟨hxb, hmask⟩, hpe⟩ := hp
      push_neg at hy hxb
      exact ⟨xx, hxx, yy, hyy, hpe.symm, hxb.1, hxb.2, hy.1, hy.2, hmask⟩
  · rintro ⟨xx, hxx, yy, hyy, hpe, hx0, hxW, hy0, hyH, hmask⟩
    refine ⟨yy, hyy, ?_⟩
    rw [roi_pixel_row_eq, if_neg (by push_neg; exact ⟨hy0, hyH⟩)]
    simp only [List.mem_filterMap, List.mem_range, Option.ite_none_right_eq_some,
      Option.some.injEq]
    exact ⟨xx, hxx, ⟨by push_neg; exact ⟨hx0, hxW⟩, hmask⟩, hpe.symm⟩

theorem roi_pixel_row_length_le (ip : ImgProc) (roi : Roi) (yy : Nat) :
    (roi_pixel_row ip roi yy).length ≤ roi.width := by
  rw [roi_pixel_row_eq]
  split
  · simp
  · exact (List.length_filterMap_le _ _).trans (by simp)

theorem roi_area_pixels_le (ip : ImgProc) (roi : Roi) :
    roi_area_pixels ip roi ≤ roi.width * roi.height := by
  unfold roi_area_pixels roi_pixel_iter
  rw [List.length_flatMap]
  calc (List.map (List.length ∘ roi_pixel_row ip roi) (List.range roi.height)).sum
      ≤ (List.map (fun _ => roi.width) (List.range roi.height)).sum := by
        apply List.sum_le_sum
        intro yy _
        exact roi_pixel_row_length_le ip roi yy
    _ = roi.width * roi.height := by
        simp [List.map_const', List.sum_replicate, smul_eq_mul, Nat.mul_comm]

/-- Claim C9: `roi_pixel_iter` yields only coordinates inside
`[0,W) × [0,H)` that lie inside the region mask at the corresponding
local coordinates (every bounding box pixel when there is no mask),
out-of-bounds coordinates being silently dropped by a total function;
`roi_area_pixels` is exactly the count of the yielded pixels and is at
most the bounding box area. -/
theorem c9_pixel_safety (ip : ImgProc) (roi : Roi) :
    (∀ p ∈ roi_pixel_iter ip roi,
      (0 ≤ p.1 ∧ p.1 < (ip.W : Int) ∧ 0 ≤ p.2 ∧ p.2 < (ip.H : Int)) ∧
      ∃ xx < roi.width, ∃ yy < roi.height,
        p = (roi.bx + (xx : Int), roi.bY + (yy : Int)) ∧ maskAdmits roi xx yy) ∧
    (roi.mask = none →
      ∀ xx < roi.width, ∀ yy < roi.height,
        0 ≤ roi.bx + (xx : Int) → roi.bx + (xx : Int) < (ip.W : Int) →
        0 ≤ roi.bY + (yy : Int) → roi.bY + (yy : Int) < (ip.H : Int) →
        (roi.bx + (xx : Int), roi.bY + (yy : Int)) ∈ roi_pixel_iter ip roi) ∧
    roi_area_pixels ip roi = (roi_pixel_iter ip roi).length ∧
    roi_area_pixels ip roi ≤ roi.width * roi.height := by
  refine ⟨?_, ?_, rfl, roi_area_pixels_le ip roi⟩
  · intro p hp
    rw [mem_roi_pixel_iter] at hp
    obtain ⟨xx, hxx, yy, hyy, hpe, hx0, hxW, hy0, hyH, hmask⟩ := hp
    subst hpe
    exact ⟨⟨hx0, hxW, hy0, hyH⟩, xx, hxx, yy, hyy, rfl, hmask⟩
  · intro hm xx hxx yy hyy hx0 hxW hy0 hyH
    rw [mem_roi_pixel_iter]
    exact ⟨xx, hxx, yy, hyy, rfl, hx0, hxW, hy0, hyH, by simp [maskAdmits, hm]⟩

/-- Witness for C9 at the concrete image `exIp` and region `exRoi`. -/
theorem c9_pixel_safety_witness :
    ((0 : Int), (0 : Int)) ∈ roi_pixel_iter exIp exRoi ∧
    (0 ≤ (0 : Int) ∧ (0 : Int) < ((exIp.W : Int)) ∧ 0 ≤ (0 : Int) ∧ (0 : Int) < ((exIp.H : Int))) := by
  have hmem : ((0 : Int), (0 : Int)) ∈ roi_pixel_iter exIp exRoi := by decide
  exact ⟨hmem, ((c9_pixel_safety exIp exRoi).1 ((0 : Int), (0 : Int)) hmem).1⟩

theorem aoi_inside_le (aoi_mask_ip : ImgProc) (roi : Roi) :
    (aoi_inside_count aoi_mask_ip roi).1 ≤ (aoi_inside_count aoi_mask_ip roi).2 := by
  unfold aoi_inside_count
  exact List.length_filter_le _ _

/-- Claim C5: the overlap fraction used by the AOI membership test always
lies in `[0,1]`; when the region contributes at least one pixel the region
is classified inside the AOI iff the fraction reaches the configured
minimum, and when it contributes zero pixels the fraction is `0` and the
region is classified outside. -/
theorem c5_aoi_membership (aoi_mask_ip : ImgProc) (roi : Roi) (min_frac : ℚ) :
    (0 ≤ overlapFraction aoi_mask_ip roi ∧ overlapFraction aoi_mask_ip roi ≤ 1) ∧
    (0 < (aoi_inside_count aoi_mask_ip roi).2 →
      (in_aoi_test aoi_mask_ip roi min_frac = true ↔
        min_frac ≤ overlapFraction aoi_mask_ip roi)) ∧
    ((aoi_inside_count aoi_mask_ip roi).2 = 0 →
      overlapFraction aoi_mask_ip roi = 0 ∧ in_aoi_test aoi_mask_ip roi min_frac = false) := by
  have hle := aoi_inside_le aoi_mask_ip roi
  refine ⟨?_, ?_, ?_⟩
  · simp only [overlapFraction]
    by_cases hpos : 0 < (aoi_inside_count aoi_mask_ip roi).2
    · rw [if_pos hpos]
      constructor
      · positivity
      · rw [div_le_one (by exact_mod_cast hpos)]
        exact_mod_cast hle
    · rw [if_neg hpos]
      norm_num
  · intro hpos
    simp only [in_aoi_test, overlapFraction]
    rw [if_pos hpos]
    simp [hpos]
  · intro hz
    simp only [in_aoi_test, overlapFraction]
    rw [if_neg (by omega)]
    simp [hz]

/-- Witness for C5 at the concrete AOI mask `exMaskIp` and region `exRoi`
with minimum fraction one half. -/
theorem c5_aoi_membership_witness :
    0 < (aoi_inside_count exMaskIp exRoi).2 ∧
    (in_aoi_test exMaskIp exRoi (1/2) = true ↔
      (1 : ℚ)/2 ≤ overlapFraction exMaskIp exRoi) := by
  exact ⟨by decide, (c5_aoi_membership exMaskIp exRoi (1/2)).2.1 (by decide)⟩

theorem not_outside_size (a lo hi : ℚ) : ¬(a < lo ∨ hi < a) ↔ lo ≤ a ∧ a ≤ hi := by
  rw [not_or, not_lt, not_lt]

theorem not_enabled_below (t x m : ℚ) : ¬(0 < t ∧ m < x) ↔ (t ≤ 0 ∨ x ≤ m) := by
  simp only [not_and, not_lt]
  rw [or_iff_not_imp_left, not_le]

theorem keep_roi_iff (cfg : FilterCfg) (bm bs : ℚ) (ip : ImgProc) (roi : Roi) :
    keep_roi cfg bm bs ip roi = true ↔
      ¬((roi_area_pixels ip roi : ℚ) < cfg.size_min ∨
          cfg.size_max < (roi_area_pixels ip roi : ℚ)) ∧
      ¬(0 < cfg.min_mean_intensity ∧ roi_mean ip roi < cfg.min_mean_intensity) ∧
      ¬(0 < cfg.sigma_above_bg ∧ roi_mean ip roi < bm + cfg.sigma_above_bg * bs) := by
  simp only [keep_roi]
  split_ifs with h1 h2 h3 <;> simp_all

theorem vscode_keep_iff (cfg : FilterCfg) (bm bs area m : ℚ) :
    vscode_keep cfg bm bs area m = true ↔
      ¬(area < cfg.size_min ∨ cfg.size_max < area) ∧
      (cfg.min_mean_intensity ≤ 0 ∨ cfg.min_mean_intensity ≤ m) ∧
      (cfg.sigma_above_bg ≤ 0 ∨ bm + cfg.sigma_above_bg * bs ≤ m) := by
  simp only [vscode_keep]
  split_ifs with h1 <;> simp_all

/-- Claim C6: a candidate region is kept iff its pixel area lies in the
inclusive range `[size_min, size_max]`, the absolute intensity floor is
disabled or met, and the sigma-above-background test is disabled or met;
the three predicates are independent conjuncts, so the sequential-reject
formulation of `NucleiInsideAOi.py` equals the
`pass_abs and pass_sigma` formulation of `nuclei_stardist_vscode.py`. -/
theorem c6_region_filter_conjunction (cfg : FilterCfg) (bg_mean bg_sd : ℚ)
    (ip : ImgProc) (roi : Roi) :
    (keep_roi cfg bg_mean bg_sd ip roi = true ↔
      (cfg.size_min ≤ (roi_area_pixels ip roi : ℚ) ∧
        (roi_area_pixels ip roi : ℚ) ≤ cfg.size_max) ∧
      (cfg.min_mean_intensity ≤ 0 ∨ cfg.min_mean_intensity ≤ roi_mean ip roi) ∧
      (cfg.sigma_above_bg ≤ 0 ∨
        bg_mean + cfg.sigma_above_bg * bg_sd ≤ roi_mean ip roi)) ∧
    keep_roi cfg bg_mean bg_sd ip roi =
      vscode_keep cfg bg_mean bg_sd (roi_area_pixels ip roi : ℚ) (roi_mean ip roi) := by
  constructor
  · rw [keep_roi_iff, not_outside_size, not_enabled_below, not_enabled_below]
  · apply Bool.eq_iff_iff.mpr
    rw [keep_roi_iff, vscode_keep_iff, not_enabled_below, not_enabled_below]

theorem classify_roi_total (ip : ImgProc) (roi : Roi) (thr : Int) (frac : ℚ) :
    (classify_roi ip roi thr frac).2.1 = (roi_pixel_iter ip roi).length := by
  simp only [classify_roi]
  split_ifs with h <;> simp [h]

theorem classify_roi_pospix (ip : ImgProc) (roi : Roi) (thr : Int) (frac : ℚ) :
    (classify_roi ip roi thr frac).2.2 =
      ((roi_pixel_iter ip roi).filter (fun p => thr ≤ ip.pix p.1 p.2)).length := by
  simp only [classify_roi]
  split_ifs with h
  · rw [List.length_eq_zero] at h
    simp [h]
  · rfl

theorem classify_roi_verdict (ip : ImgProc) (roi : Roi) (thr : Int) (frac : ℚ)
    (h : (roi_pixel_iter ip roi).length ≠ 0) :
    (classify_roi ip roi thr frac).1 = true ↔
      frac ≤ ((classify_roi ip roi thr frac).2.2 : ℚ) /
        ((classify_roi ip roi thr frac).2.1 : ℚ) := by
  rw [classify_roi_total, classify_roi_pospix]
  simp only [classify_roi]
  rw [if_neg h]
  simp

theorem classify_loop_spec (m_ip : ImgProc) (thr : Int) (frac : ℚ) :
    ∀ (valid : List Roi) (k : Nat),
      (classify_loop m_ip thr frac k valid).total =
        (valid.filter (fun roi => (classify_roi m_ip roi thr frac).2.1 ≠ 0)).length ∧
      (classify_loop m_ip thr frac k valid).total =
        (classify_loop m_ip thr frac k valid).pos_count +
          (classify_loop m_ip thr frac k valid).neg_count ∧
      (classify_loop m_ip thr frac k valid).rows.map
          (fun r => (r.roi_px, r.pospix, r.is_pos)) =
        (valid.filter (fun roi => (classify_roi m_ip roi thr frac).2.1 ≠ 0)).map
          (fun roi => ((classify_roi m_ip roi thr frac).2.1,
            (classify_roi m_ip roi thr frac).2.2, (classify_roi m_ip roi thr frac).1)) := by
  intro valid
  induction valid with
  | nil => intro k; simp [classify_loop]
  | cons roi rest ih =>
    intro k
    obtain ⟨ih1, ih2, ih3⟩ := ih (k + 1)
    simp only [ne_eq, decide_not] at ih1 ih3 ⊢
    by_cases hc : (classify_roi m_ip roi thr frac).2.1 = 0
    · simp [classify_loop, hc, ih1, ih2, ih3]
      omega
    · by_cases hp : (classify_roi m_ip roi thr frac).1 = true
      · simp [classify_loop, hc, hp, ih1, ih2, ih3, List.filter_cons]
        omega
      · simp [classify_loop, hc, hp, ih1, ih2, ih3, List.filter_cons]
        omega

/-- Claim C4: the marker classifier reports the exact pixel counts of the
region (`total` is the number of region pixels, `pospix` the number at or
above the threshold); a region with at least one pixel is positive iff the
positive fraction reaches the configured minimum; and the classification
loop excludes zero-pixel regions entirely (no count, no row) while
emitting, for every classified region, one row carrying exactly the
`(total, positive)` counts used. -/
theorem c4_marker_classification (m_ip : ImgProc) (roi : Roi) (valid : List Roi)
    (thr : Int) (frac : ℚ) (k : Nat) :
    (classify_roi m_ip roi thr frac).2.1 = (roi_pixel_iter m_ip roi).length ∧
    (classify_roi m_ip roi thr frac).2.2 =
      ((roi_pixel_iter m_ip roi).filter (fun p => thr ≤ m_ip.pix p.1 p.2)).length ∧
    ((roi_pixel_iter m_ip roi).length ≠ 0 →
      ((classify_roi m_ip roi thr frac).1 = true ↔
        frac ≤ ((classify_roi m_ip roi thr frac).2.2 : ℚ) /
          ((classify_roi m_ip roi thr frac).2.1 : ℚ))) ∧
    ((classify_roi m_ip roi thr frac).2.1 = 0 →
      classify_loop m_ip thr frac k [roi] = ⟨0, 0, 0, []⟩) ∧
    (classify_loop m_ip thr frac k valid).total =
      (valid.filter (fun roi => (classify_roi m_ip roi thr frac).2.1 ≠ 0)).length ∧
    (classify_loop m_ip thr frac k valid).total =
      (classify_loop m_ip thr frac k valid).pos_count +
        (classify_loop m_ip thr frac k valid).neg_count ∧
    (classify_loop m_ip thr frac k valid).rows.map
        (fun r => (r.roi_px, r.pospix, r.is_pos)) =
      (valid.filter (fun roi => (classify_roi m_ip roi thr frac).2.1 ≠ 0)).map
        (fun roi => ((classify_roi m_ip roi thr frac).2.1,
          (classify_roi m_ip roi thr frac).2.2, (classify_roi m_ip roi thr frac).1)) := by
  obtain ⟨h1, h2, h3⟩ := classify_loop_spec m_ip thr frac valid k
  refine ⟨classify_roi_total m_ip roi thr frac, classify_roi_pospix m_ip roi thr frac,
    classify_roi_verdict m_ip roi thr frac, ?_, h1, h2, h3⟩
  intro hz
  simp [classify_loop, hz]

/-- Witness for C4 at the concrete marker image `exIp`, region `exRoi`,
threshold 100 and minimum fraction one twentieth. -/
theorem c4_marker_classification_witness :
    (roi_pixel_iter exIp exRoi).length ≠ 0 ∧
    ((classify_roi exIp exRoi 100 (1/20)).1 = true ↔
      (1 : ℚ)/20 ≤ ((classify_roi exIp exRoi 100 (1/20)).2.2 : ℚ) /
        ((classify_roi exIp exRoi 100 (1/20)).2.1 : ℚ)) := by
  exact ⟨by decide,
    (c4_marker_classification exIp exRoi [exRoi] 100 (1/20) 0).2.2.1 (by decide)⟩

theorem brightest_fold_isSome_of_isSome :
    ∀ (l : List Win) (b : Option Win × ℚ),
      b.1.isSome = true → ((l.foldl brightest_step b).1).isSome = true := by
  intro l
  induction l with
  | nil => intro b hb; simpa using hb
  | cons v t ih =>
    intro b hb
    simp only [List.foldl_cons]
    apply ih
    unfold brightest_step
    split_ifs
    · simp
    · exact hb

theorem brightest_fold_isSome_of_exists :
    ∀ (l : List Win) (b : Option Win × ℚ),
      (∃ w ∈ l, b.2 < w.meanIntensity) → ((l.foldl brightest_step b).1).isSome = true := by
  intro l
  induction l with
  | nil =>
    rintro b ⟨w, hw, _⟩
    simp at hw
  | cons v t ih =>
    rintro b ⟨w, hw, hlt⟩
    simp only [List.foldl_cons]
    rcases List.mem_cons.mp hw with h | h
    · subst h
      apply brightest_fold_isSome_of_isSome
      unfold brightest_step
      rw [if_pos hlt]
      simp
    · by_cases hv : b.2 < v.meanIntensity
      · apply brightest_fold_isSome_of_isSome
        unfold brightest_step
        rw [if_pos hv]
        simp
      · apply ih
        refine ⟨w, h, ?_⟩
        unfold brightest_step
        rw [if_neg hv]
        exact hlt

theorem pick_dapi_image_none_iff (patterns : List String) (candidates : List Win) :
    pick_dapi_image patterns candidates = none ↔ candidates = [] := by
  unfold pick_dapi_image
  cases hf : candidates.find? (title_match patterns) with
  | some w =>
    constructor
    · intro h
      exact absurd h (by simp)
    · intro h
      subst h
      simp at hf
  | none =>
    exact List.head?_eq_none_iff

/-- Counterexample to claim C7: with two open windows whose titles match
none of the configured DAPI patterns, `pick_dapi_from_list` does not fail
but falls back to the brightest window, and the series is NOT skipped
(there is a marker window), contradicting the claimed log-and-skip
policy for an unidentifiable reference channel. -/
theorem c7_counterexample :
    ([exW1, exW2].find? (title_match exPatterns) = none) ∧
    pick_dapi_from_list [exW1, exW2] exPatterns = some exW2 ∧
    posneg_series_skipped [exW1, exW2] exPatterns exMarkerKeys = false := by
  have hf : ([exW1, exW2].find? (title_match exPatterns)) = none := by decide
  have hb : brightest_fold [exW1, exW2] = some exW2 := by
    unfold brightest_fold brightest_step
    norm_num [exW1, exW2]
  have hpick : pick_dapi_from_list [exW1, exW2] exPatterns = some exW2 := by
    unfold pick_dapi_from_list
    rw [hf]
    exact hb
  refine ⟨hf, hpick, ?_⟩
  have hm : ([exW1, exW2].filter (fun w => exMarkerKeys.any (fun k => strContains w.title k)))
      = [exW2] := by decide
  unfold posneg_series_skipped
  rw [hpick, hm]
  simp

/-- Claim C7 (amended): when the DAPI patterns match no window title the
series is not skipped; `pick_dapi_image` of `NucleiInsideAOi.py` fails
only on an empty window list (otherwise falling back to the first
window), and the pickers of `Positiv_negativ.py` and
`nuclei_stardist_sorted.py` return a window whenever some window has mean
intensity above the fold seed `-1` (falling back to the brightest
window). -/
theorem c7_amended_dapi_fallback (patterns : List String) (candidates l : List Win) :
    (pick_dapi_image patterns candidates = none ↔ candidates = []) ∧
    ((∃ w ∈ l, -1 < w.meanIntensity) → (pick_dapi_from_list l patterns).isSome = true) ∧
    ((∃ w ∈ l, -1 < w.meanIntensity) → (pick_dapi_sorted patterns l).isSome = true) := by
  refine ⟨pick_dapi_image_none_iff patterns candidates, ?_, ?_⟩
  · intro hex
    unfold pick_dapi_from_list
    cases hf : l.find? (title_match patterns) with
    | some w => simp
    | none => exact brightest_fold_isSome_of_exists l ((none : Option Win), (-1 : ℚ)) hex
  · intro hex
    have hne : l ≠ [] := by
      rintro rfl
      obtain ⟨w, hw, _⟩ := hex
      simp at hw
    unfold pick_dapi_sorted
    cases hf : l.find? (title_match patterns) with
    | some w => simp
    | none =>
      have hhead : l.head?.isSome = true := by
        cases l with
        | nil => exact absurd rfl hne
        | cons x t => simp
      split_ifs with h1
      · exact hhead
      · have hb : (brightest_fold l).isSome = true :=
          brightest_fold_isSome_of_exists l ((none : Option Win), (-1 : ℚ)) hex
        cases hbb : brightest_fold l with
        | some b => simp
        | none =>
          rw [hbb] at hb
          simp at hb

/-- Witness for C7 at the concrete window list `[exW1]`. -/
theorem c7_amended_dapi_fallback_witness :
    (∃ w ∈ [exW1], -1 < w.meanIntensity) ∧
    (pick_dapi_from_list [exW1] exPatterns).isSome = true := by
  have hex : ∃ w ∈ [exW1], (-1 : ℚ) < w.meanIntensity :=
    ⟨exW1, by simp, by norm_num [exW1]⟩
  exact ⟨hex, (c7_amended_dapi_fallback exPatterns [exW1] [exW1]).2.1 hex⟩

/-- Claim C8: rescaling a detected region with a nonempty float polygon
yields a polygon of identical vertex count and order whose vertices are
the originals multiplied coordinate-wise by `(sx, sy)`; a region without a
polygon yields the rectangle of the scaled, rounded bounding box corners
with width and height clamped to at least 1. -/
theorem c8_rescale_roi (fp : Option (List (ℚ × ℚ))) (box_x box_y : Int)
    (box_w box_h : Nat) (sx sy : ℚ) (pts : List (ℚ × ℚ)) :
    (fp = some pts → pts ≠ [] →
      rescale_roi_to_original fp box_x box_y box_w box_h sx sy =
        RoiShape.polygon (pts.map (fun v => (v.1 * sx, v.2 * sy))) ∧
      (pts.map (fun v => (v.1 * sx, v.2 * sy))).length = pts.length ∧
      ∀ (i : Nat) (h1 : i < pts.length)
        (h2 : i < (pts.map (fun v => (v.1 * sx, v.2 * sy))).length),
        (pts.map (fun v => (v.1 * sx, v.2 * sy))).get ⟨i, h2⟩ =
          ((pts.get ⟨i, h1⟩).1 * sx, (pts.get ⟨i, h1⟩).2 * sy)) ∧
    ((fp = none ∨ fp = some []) →
      rescale_roi_to_original fp box_x box_y box_w box_h sx sy =
        RoiShape.rect (pyround ((box_x : ℚ) * sx)) (pyround ((box_y : ℚ) * sy))
          (max 1 (pyround ((box_w : ℚ) * sx))) (max 1 (pyround ((box_h : ℚ) * sy))) ∧
      1 ≤ max 1 (pyround ((box_w : ℚ) * sx)) ∧
      1 ≤ max 1 (pyround ((box_h : ℚ) * sy))) := by
  constructor
  · intro hfp hne
    subst hfp
    refine ⟨?_, by simp, ?_⟩
    · simp only [rescale_roi_to_original]
      rw [if_neg (by simpa using hne)]
    · intro i h1 h2
      simp
  · rintro (hfp | hfp) <;> subst hfp
    · exact ⟨rfl, le_max_left _ _, le_max_left _ _⟩
    · exact ⟨rfl, le_max_left _ _, le_max_left _ _⟩

/-- Witness for C8 at the concrete polygon `[(1,2),(3,4)]` with scale
factors `(2,3)`. -/
theorem c8_rescale_roi_witness :
    rescale_roi_to_original (some [((1 : ℚ), (2 : ℚ)), (3, 4)]) 0 0 5 5 2 3 =
      RoiShape.polygon ([((1 : ℚ), (2 : ℚ)), (3, 4)].map (fun v => (v.1 * 2, v.2 * 3))) ∧
    ([((1 : ℚ), (2 : ℚ)), (3, 4)].map (fun v => (v.1 * 2, v.2 * 3))).length =
      [((1 : ℚ), (2 : ℚ)), (3, 4)].length := by
  have h := (c8_rescale_roi (some [((1 : ℚ), (2 : ℚ)), (3, 4)]) 0 0 5 5 2 3
    [((1 : ℚ), (2 : ℚ)), (3, 4)]).1 rfl (by simp)
  exact ⟨h.1, h.2.1⟩

/-- Claim C10: in `positivearea_Positivnegativ.py` all filter
measurements are taken on the working-resolution processor, and when
pre-scaling is active (`1e-6 < |s - 1|`) both size bounds are multiplied
by `s * s`, so that the working-resolution area test is equivalent to
testing the native-resolution area `area / s^2` against the configured
bounds; moreover AOI overlap and marker classification are also performed
at the working resolution: `scale_duplicate_to` is the identity exactly
when scaling is inactive and otherwise requests the working dimensions
`scaled_dims` from the scaling engine, every kept region of a marker pass
is classified against the rescaled marker image and the AOI mask built
from the rescaled AOI duplicate, and (for a scaling engine honouring the
requested dimensions and a dimension-preserving mask construction) the
marker image, the AOI mask and the StarDist work image all share the same
working dimensions. -/
theorem c10_size_scale_compensation (smin smax s : ℚ) (a : Nat) (cfg : FilterCfg)
    (bm bs : ℚ) (work_ip : ImgProc) (roi : Roi)
    (scaleEngine : ImgProc → Nat × Nat → ImgProc) (maskEngine : ImgProc → ImgProc)
    (aoiOpt : Option ImgProc) (dapiImg aoiImg mwin : ImgProc)
    (kept_rois : List Roi) (thr : Int) (pos_frac aoi_min_frac : ℚ) :
    (1/1000000 < |s - 1| →
      size_min_eff smin s = smin * (s * s) ∧ size_max_eff smax s = smax * (s * s)) ∧
    (¬(1/1000000 < |s - 1|) → size_min_eff smin s = smin ∧ size_max_eff smax s = smax) ∧
    (0 < s → 1/1000000 < |s - 1| →
      (size_pass_work smin smax s a = true ↔
        smin ≤ (a : ℚ) / (s * s) ∧ (a : ℚ) / (s * s) ≤ smax)) ∧
    (positivearea_keep cfg s bm bs work_ip roi = true ↔
      size_pass_work cfg.size_min cfg.size_max s (roi_area_pixels work_ip roi) = true ∧
      ¬(0 < cfg.min_mean_intensity ∧ roi_mean work_ip roi < cfg.min_mean_intensity) ∧
      ¬(0 < cfg.sigma_above_bg ∧
          roi_mean work_ip roi < bm + cfg.sigma_above_bg * bs)) ∧
    (|s - 1| ≤ 1/1000000 → scale_duplicate_to scaleEngine mwin s = mwin) ∧
    (1/1000000 < |s - 1| →
      scale_duplicate_to scaleEngine mwin s =
        scaleEngine mwin (scaled_dims mwin.W mwin.H s)) ∧
    (positivearea_series_classify scaleEngine maskEngine aoiOpt mwin s thr
        pos_frac aoi_min_frac kept_rois =
      kept_rois.map (positivearea_classify_region
        (scale_duplicate_to scaleEngine mwin s)
        (aoiOpt.map (fun x => maskEngine (scale_duplicate_to scaleEngine x s)))
        thr pos_frac aoi_min_frac)) ∧
    ((∀ imp d, (scaleEngine imp d).W = d.1 ∧ (scaleEngine imp d).H = d.2) →
      (∀ imp, (maskEngine imp).W = imp.W ∧ (maskEngine imp).H = imp.H) →
      aoiImg.W = dapiImg.W → aoiImg.H = dapiImg.H →
      mwin.W = dapiImg.W → mwin.H = dapiImg.H →
      ((scale_duplicate_to scaleEngine mwin s).W =
          (scale_duplicate_to scaleEngine dapiImg s).W ∧
        (scale_duplicate_to scaleEngine mwin s).H =
          (scale_duplicate_to scaleEngine dapiImg s).H ∧
        (maskEngine (scale_duplicate_to scaleEngine aoiImg s)).W =
          (scale_duplicate_to scaleEngine dapiImg s).W ∧
        (maskEngine (scale_duplicate_to scaleEngine aoiImg s)).H =
          (scale_duplicate_to scaleEngine dapiImg s).H ∧
        (1/1000000 < |s - 1| →
          (scale_duplicate_to scaleEngine dapiImg s).W =
            (scaled_dims dapiImg.W dapiImg.H s).1 ∧
          (scale_duplicate_to scaleEngine dapiImg s).H =
            (scaled_dims dapiImg.W dapiImg.H s).2))) := by
  refine ⟨?_, ?_, ?_, ?_, ?_, ?_, ?_, ?_⟩
  · intro h
    unfold size_min_eff size_max_eff area_scale
    rw [if_pos h]
    exact ⟨rfl, rfl⟩
  · intro h
    unfold size_min_eff size_max_eff area_scale
    rw [if_neg h]
    simp
  · intro hs hcond
    have hs2 : (0 : ℚ) < s * s := mul_pos hs hs
    have hmin : size_min_eff smin s = smin * (s * s) := by
      unfold size_min_eff area_scale
      rw [if_pos hcond]
    have hmax : size_max_eff smax s = smax * (s * s) := by
      unfold size_max_eff area_scale
      rw [if_pos hcond]
    unfold size_pass_work
    rw [hmin, hmax]
    constructor
    · intro h
      split_ifs at h with hr
      push_neg at hr
      exact ⟨(le_div_iff₀ hs2).mpr hr.1, (div_le_iff₀ hs2).mpr hr.2⟩
    · rintro ⟨h1, h2⟩
      rw [le_div_iff₀ hs2] at h1
      rw [div_le_iff₀ hs2] at h2
      rw [if_neg (by push_neg; exact ⟨h1, h2⟩)]
  · simp only [positivearea_keep, size_pass_work]
    split_ifs with h1 h2 h3 <;> simp_all
  · intro h
    unfold scale_duplicate_to
    rw [if_pos h]
  · intro h
    unfold scale_duplicate_to
    rw [if_neg (not_le.mpr h)]
  · rfl
  · intro he hm hW hH hmW hmH
    unfold scale_duplicate_to
    by_cases hg : |s - 1| ≤ 1/1000000
    · simp only [if_pos hg]
      refine ⟨hmW, hmH, ?_, ?_, ?_⟩
      · rw [(hm aoiImg).1, hW]
      · rw [(hm aoiImg).2, hH]
      · intro hc
        exact absurd hc (not_lt.mpr hg)
    · simp only [if_neg hg]
      have hd : scaled_dims mwin.W mwin.H s = scaled_dims dapiImg.W dapiImg.H s := by
        rw [hmW, hmH]
      have hd2 : scaled_dims aoiImg.W aoiImg.H s = scaled_dims dapiImg.W dapiImg.H s := by
        rw [hW, hH]
      refine ⟨?_, ?_, ?_, ?_, ?_⟩
      · rw [(he mwin _).1, (he dapiImg _).1, hd]
      · rw [(he mwin _).2, (he dapiImg _).2, hd]
      · rw [(hm _).1, (he aoiImg _).1, (he dapiImg _).1, hd2]
      · rw [(hm _).2, (he aoiImg _).2, (he dapiImg _).2, hd2]
      · intro _
        exact ⟨(he dapiImg _).1, (he dapiImg _).2⟩

/-- Witness for C10 at scale one half, area 100 and bounds `[50, 2500]`. -/
theorem c10_size_scale_compensation_witness :
    (0 : ℚ) < 1/2 ∧ (1 : ℚ)/1000000 < |(1 : ℚ)/2 - 1| ∧
    (size_pass_work 50 2500 (1/2) 100 = true ↔
      (50 : ℚ) ≤ (100 : ℚ) / ((1/2) * (1/2)) ∧
      (100 : ℚ) / ((1/2) * (1/2)) ≤ 2500) ∧
    scale_duplicate_to exScaleEngine exIp (1/2) =
      exScaleEngine exIp (scaled_dims exIp.W exIp.H (1/2)) := by
  have habs : (1 : ℚ)/1000000 < |(1 : ℚ)/2 - 1| := by
    rw [abs_of_nonpos (by norm_num)]
    norm_num
  have h := c10_size_scale_compensation 50 2500 (1/2) 100 ⟨50, 2500, 0, 0⟩ 0 0 exIp exRoi
    exScaleEngine (fun imp => imp) none exIp exIp exIp [] 0 0 0
  exact ⟨by norm_num, habs, h.2.2.1 (by norm_num) habs, h.2.2.2.2.2.1 habs⟩

/-- Claim C1 (code bug): at the concrete two-pixel image `exBgIp` with one
detected region `exBgRoi` covering the bright pixel, the whole-image
statistics consumed by the filters of `NucleiInsideAOi.py` (line 245) and
`positivearea_Positivnegativ.py` (line 352, despite its own comment
"Compute background intensity outside nuclei") give mean 5, while the
complement-of-union statistics of the specification (implemented by
`nuclei_stardist_sorted.py` lines 222-230 and `Positiv_negativ.py` lines
283-291) give mean 0: the consumed background mean is not the
complement-of-union mean even though a region was detected. -/
theorem c1_background_uses_whole_image :
    bg_mean_whole_image exBgIp = 5 ∧
    bg_mean_outside_union exBgIp [exBgRoi] = 0 ∧
    bg_mean_whole_image exBgIp ≠ bg_mean_outside_union exBgIp [exBgRoi] := by
  have h1 : all_pixels exBgIp = [(0, 0), (1, 0)] := by decide
  have h2 : (all_pixels exBgIp).filter (fun p => !(in_union exBgIp [exBgRoi] p))
      = [(1, 0)] := by decide
  have e1 : bg_mean_whole_image exBgIp = 5 := by
    simp only [bg_mean_whole_image, pixel_list_mean, h1]
    norm_num [exBgIp]
  have e2 : bg_mean_outside_union exBgIp [exBgRoi] = 0 := by
    simp only [bg_mean_outside_union]
    rw [if_neg (by simp)]
    simp only [pixel_list_mean, h2]
    norm_num [exBgIp]
  exact ⟨e1, e2, by rw [e1, e2]; norm_num⟩

/-- Counterexample to claim C2: in `NucleiInsideAOi.py` a series whose
kept set is empty returns at lines 286-289 before any CSV export, so no
summary row is written at all, contradicting the claim that a zero-count
row is always emitted. -/
theorem c2_counterexample : insideAOI_summary_rows [] = [] := by
  simp [insideAOI_summary_rows]

/-- Claim C2 (amended): the counts variants (`nuclei_stardist_sorted.py`,
`nuclei_stardist_vscode.py`) always write exactly one summary row per
processed series, with count 0 and means 0.0 when nothing was kept, while
the AOI variant `NucleiInsideAOi.py` writes no summary row for a series
whose kept set is empty. -/
theorem c2_amended_summary_rows (kept : List (ℚ × ℚ)) (kept2 : List KeptEntry) :
    (sorted_summary_rows kept).length = 1 ∧
    (kept = [] → sorted_summary_rows kept = [⟨0, 0, 0⟩]) ∧
    (kept2 = [] → insideAOI_summary_rows kept2 = []) := by
  refine ⟨rfl, ?_, ?_⟩
  · rintro rfl
    simp [sorted_summary_rows, sorted_summary]
  · rintro rfl
    simp [insideAOI_summary_rows]

/-- Witness for C2 at the empty kept lists. -/
theorem c2_amended_summary_rows_witness :
    sorted_summary_rows ([] : List (ℚ × ℚ)) = [⟨0, 0, 0⟩] ∧
    insideAOI_summary_rows ([] : List KeptEntry) = [] := by
  exact ⟨(c2_amended_summary_rows [] []).2.1 rfl, (c2_amended_summary_rows [] []).2.2 rfl⟩

/-- Counterexample to claim C3: in `nuclei_stardist_vscode.py` a region
with zero perimeter gets circularity 0 (not NaN), and that 0 enters the
aggregated mean: with one genuine region of circularity `qpi/4` and one
degenerate region the mean is `qpi/8`, not the non-degenerate value
`qpi/4` that an exclude-NaN aggregation would give. -/
theorem c3_counterexample :
    vscode_circularity 1 0 = 0 ∧
    vscode_mean_circ [vscode_circularity 400 80, vscode_circularity 1 0] = qpi / 8 ∧
    vscode_mean_circ [vscode_circularity 400 80, vscode_circularity 1 0] ≠
      vscode_circularity 400 80 := by
  refine ⟨by norm_num [vscode_circularity], ?_, ?_⟩
  · norm_num [vscode_circularity, vscode_mean_circ, qpi]
  · norm_num [vscode_circularity, vscode_mean_circ, qpi]

/-- Claim C3 (amended): in the Jython variants a missing mask or an
analysis with no particle yields NaN and NaN circularities are excluded
from the aggregated mean; in the Python variant a zero-perimeter region
yields circularity 0, and that 0 is counted in the aggregated mean (it
enlarges the denominator without contributing to the numerator). -/
theorem c3_amended_circularity
    (analyzeParticles : (Nat → Nat → Nat) → List ℚ) (m : Nat → Nat → Nat)
    (cs : List (Option ℚ)) (area : ℚ) (vals : List ℚ) :
    circ_from_roi analyzeParticles none = none ∧
    (analyzeParticles m = [] → circ_from_roi analyzeParticles (some m) = none) ∧
    mean_circ_nonNaN (none :: cs) = mean_circ_nonNaN cs ∧
    vscode_circularity area 0 = 0 ∧
    vscode_mean_circ (vscode_circularity area 0 :: vals) =
      vals.sum / ((vals.length : ℚ) + 1) := by
  refine ⟨rfl, ?_, ?_, by norm_num [vscode_circularity], ?_⟩
  · intro h
    simp [circ_from_roi, h]
  · simp [mean_circ_nonNaN]
  · simp [vscode_mean_circ, vscode_circularity]

/-- Witness for C3 with the empty particle analysis on a concrete mask. -/
theorem c3_amended_circularity_witness :
    (fun (_ : Nat → Nat → Nat) => ([] : List ℚ)) (fun _ _ => 0) = ([] : List ℚ) ∧
    circ_from_roi (fun _ => ([] : List ℚ)) (some (fun _ _ => 0)) = none := by
  exact ⟨rfl, (c3_amended_circularity (fun _ => []) (fun _ _ => 0) [] 0 []).2.1 rfl⟩

end NucleiStardist
